import Mathlib

/-!
# MCS-Backend content-transfer subsystem: a shallow embedding

Verification of the chunked-upload service (`internal/services/statistics_service.go`,
`UploadService.InitUpload` / `UploadChunk` / `CompleteUpload`) and of the batch-download
service (`internal/services/download_service.go`, `processDownloadTask`,
`updateTaskError`, `CleanExpiredTasks`) against the natural-language specification.

Modelling conventions, uniform across the file:

* Go `string` is `String`, Go `int` / `int64` are `Int` (chunk indices may be negative),
  Go `uint` database ids are `Nat`, byte slices are `List Nat`.
* MD5 (Go `crypto/md5`, external to this repository) is an abstract parameter
  `hash : List Nat → Nat`; checksums and declared fingerprints are `Nat` values compared
  to `hash` outputs, exactly where the Go code compares hex digests.
* The Go process-global map `uploadSessions` and the GORM tables are explicit components
  of a state record; a Go map is an association list with unique keys, GORM
  `Update`/`Updates` with a `Where id` clause maps over the task list, GORM `Delete`
  (a soft delete that hides rows from every later query) is list removal.
* The filesystem is an association list from path strings to contents. `os.Create`
  followed by writes is `mapSet` (truncate-or-create), `os.RemoveAll dir` drops every
  path with prefix `dir`, `os.Remove` is `mapDel`. Environment I/O failures of
  `os.MkdirAll` / `os.Create` / `Write` and GORM `Create` are not modelled (those error
  returns are unreachable in the model); a *missing* file on open is modelled, since the
  chunk-merge and zip-build loops branch on it.
* Wall-clock values (`time.Now`) enter as an explicit `now : Int` argument;
  `time.Time` fields that no claim reads (`CreatedAt`, `UpdatedAt`) are omitted.
-/

namespace MCS

/-! ## Association-list maps (Go maps, GORM keyed rows, the filesystem) -/

/-- Lookup in an association list: Go `m[k]` / `os.Open`. -/
def mapGet {α : Type} (k : String) : List (String × α) → Option α
  | [] => none
  | (k', v) :: rest => if k' = k then some v else mapGet k rest

/-- Update-or-insert: Go `m[k] = v` / `os.Create` + write. -/
def mapSet {α : Type} (k : String) (v : α) : List (String × α) → List (String × α)
  | [] => [(k, v)]
  | (k', v') :: rest => if k' = k then (k, v) :: rest else (k', v') :: mapSet k v rest

/-- Removal: Go `delete(m, k)` / `os.Remove`. Removing an absent key is a no-op,
matching Go map deletion and the download service ignoring `os.Remove` errors. -/
def mapDel {α : Type} (k : String) : List (String × α) → List (String × α)
  | [] => []
  | (k', v) :: rest => if k' = k then mapDel k rest else (k', v) :: mapDel k rest

/-- Go `strings.HasPrefix` on paths — the subtree test of `os.RemoveAll`, stated
structurally over the character lists. -/
def pathHasPrefix (dir p : String) : Bool :=
  List.isPrefixOf dir.data p.data

/-- Go `strings.ToLower`, stated structurally over the character list. -/
def strToLower (s : String) : String :=
  String.mk (s.data.map Char.toLower)

/-! ## Upload subsystem: data model

`statistics_service.go` lines 899–1234. `models.File` rows are the only persistent
record of stored content: the dedup ("秒传" / instant upload) query in `InitUpload`
matches on `md5_hash`, `file_size`, `is_deleted = false` over this table, and the
response struct `File` copies the row field for field, so one record type serves for
both. -/

/-- A `models.File` row / the `File` response struct of the upload service. -/
structure FileRecord where
  id : Nat
  fileName : String
  filePath : String
  fileSize : Int
  md5Hash : Nat
  mimeType : String
  ownerID : Nat
  folderID : Nat
  workflowID : Nat
  taskID : Nat
  isPrivate : Bool
  description : String
  isDeleted : Bool
deriving Repr, DecidableEq

/-- `UploadSession` (statistics_service.go): the in-memory chunked-upload session.
`UploadedChunks map[int]bool` stores only `true` entries, so it is the finite set of
marked indices: a `List Int` mutated by `List.insert` (no duplicates ever arise). -/
structure UploadSession where
  uploadID : String
  fileName : String
  fileSize : Int
  md5Hash : Nat
  chunkSize : Int
  totalChunks : Int
  uploadedChunks : List Int
  userID : Nat
  folderID : Nat
  workflowID : Nat
  taskID : Nat
  description : String
  isPrivate : Bool
  tempDir : String
deriving Repr, DecidableEq

/-- `InitUploadRequest` (binding-validated HTTP body). -/
structure InitUploadRequest where
  fileName : String
  fileSize : Int
  md5Hash : Nat
  chunkSize : Int
  folderID : Nat
  workflowID : Nat
  taskID : Nat
  description : String
  isPrivate : Bool
deriving Repr, DecidableEq

/-- `InitUploadResponse`. In the dedup branch Go leaves `UploadID`, `TotalChunks`,
`ChunkSize` at their zero values; the session branch leaves `ExistingFile` nil. -/
structure InitUploadResponse where
  uploadID : String
  totalChunks : Int
  chunkSize : Int
  existingFile : Option FileRecord
  isSecUpload : Bool
deriving Repr, DecidableEq

/-- `config.File.TempPath` and `config.File.UploadPath`. -/
structure UploadConfig where
  tempPath : String
  uploadPath : String
deriving Repr, DecidableEq

/-- The mutable world of the upload service: the process-global `uploadSessions` map,
the `files` table (with its auto-increment counter), and the filesystem (temp chunk
files and permanent upload files live in one namespace of paths, as on disk). -/
structure UploadState where
  sessions : List (String × UploadSession)
  files : List FileRecord
  nextFileID : Nat
  fs : List (String × List Nat)
deriving Repr, DecidableEq

/-- Every distinct `errors.New` / `fmt.Errorf` site of the three upload operations
that the model can reach. The Go messages, in order: "上传会话不存在" (session not
found), "分片MD5校验失败" (chunk MD5 mismatch), "分片 %d 未上传" (chunk i missing),
"打开分片文件失败" (open chunk file failed), "文件MD5校验失败" (file MD5 mismatch).
The taxonomy contains no conflict/finalizing-session error: no such site exists in
the Go source. -/
inductive UploadError where
  | sessionNotFound
  | chunkChecksumMismatch
  | chunkMissing (i : Int)
  | openChunkFailed (i : Int)
  | fileChecksumMismatch
deriving Repr, DecidableEq

/-! ## Upload subsystem: operations -/

/-- The dedup query of `InitUpload`:
`First` over `md5_hash = ? AND file_size = ? AND is_deleted = false` — the first
matching row in primary-key order, which is the order rows were appended. -/
def findDedup (md5 : Nat) (size : Int) : List FileRecord → Option FileRecord
  | [] => none
  | f :: rest =>
      if f.md5Hash = md5 ∧ f.fileSize = size ∧ f.isDeleted = false then some f
      else findDedup md5 size rest

/-- `getMimeType` (statistics_service.go lines 1237–1265): extension of the file name
per Go `filepath.Ext` — the suffix from the final dot, stopping at a path separator,
empty if no dot. Input is the reversed character list; `acc` holds the characters
already passed, in forward order. -/
def fileExtAux (acc : List Char) : List Char → String
  | [] => ""
  | c :: rest =>
      if c = '/' then ""
      else if c = '.' then String.mk ('.' :: acc)
      else fileExtAux (c :: acc) rest

/-- Go `filepath.Ext`. -/
def fileExt (s : String) : String :=
  fileExtAux [] s.data.reverse

/-- `getMimeType`: lowercased extension looked up in the literal table, defaulting to
"application/octet-stream". -/
def getMimeType (fileName : String) : String :=
  let ext := strToLower (fileExt fileName)
  let table : List (String × String) :=
    [(".jpg", "image/jpeg"), (".jpeg", "image/jpeg"), (".png", "image/png"),
     (".gif", "image/gif"), (".pdf", "application/pdf"), (".doc", "application/msword"),
     (".docx", "application/vnd.openxmlformats-officedocument.wordprocessingml.document"),
     (".xls", "application/vnd.ms-excel"),
     (".xlsx", "application/vnd.openxmlformats-officedocument.spreadsheetml.sheet"),
     (".ppt", "application/vnd.ms-powerpoint"),
     (".pptx", "application/vnd.openxmlformats-officedocument.presentationml.presentation"),
     (".txt", "text/plain"), (".zip", "application/zip"),
     (".rar", "application/x-rar-compressed"), (".mp4", "video/mp4"),
     (".avi", "video/x-msvideo"), (".mp3", "audio/mpeg"), (".wav", "audio/wav")]
  match mapGet ext table with
  | some m => m
  | none => "application/octet-stream"

/-- The staging path of one chunk: `filepath.Join(session.TempDir,
fmt.Sprintf("chunk_%d", chunkIndex))`. -/
def chunkPath (tempDir : String) (chunkIndex : Int) : String :=
  tempDir ++ "/chunk_" ++ toString chunkIndex

/-- `UploadService.InitUpload` (lines 971–1054). Dedup branch: create a `File` row
copying path/size/hash/mime from the existing row, owned by the caller; no session,
no bytes. Otherwise: `totalChunks = (fileSize + chunkSize - 1) / chunkSize` in Go
truncated integer division (`Int.tdiv`), a fresh session with an empty received set,
registered under `fmt.Sprintf("%d_%s_%d", userID, md5, now)`. -/
def initUpload (cfg : UploadConfig) (now : Int) (req : InitUploadRequest)
    (userID : Nat) (σ : UploadState) :
    Except UploadError InitUploadResponse × UploadState :=
  match findDedup req.md5Hash req.fileSize σ.files with
  | some existing =>
      let newFile : FileRecord :=
        { id := σ.nextFileID
          fileName := req.fileName
          filePath := existing.filePath
          fileSize := existing.fileSize
          md5Hash := existing.md5Hash
          mimeType := existing.mimeType
          ownerID := userID
          folderID := req.folderID
          workflowID := req.workflowID
          taskID := req.taskID
          isPrivate := req.isPrivate
          description := req.description
          isDeleted := false }
      (Except.ok
        { uploadID := "", totalChunks := 0, chunkSize := 0
          existingFile := some newFile, isSecUpload := true },
       { σ with files := σ.files ++ [newFile], nextFileID := σ.nextFileID + 1 })
  | none =>
      let totalChunks := Int.tdiv (req.fileSize + req.chunkSize - 1) req.chunkSize
      let uploadID :=
        toString userID ++ "_" ++ toString req.md5Hash ++ "_" ++ toString now
      let tempDir := cfg.tempPath ++ "/" ++ uploadID
      let session : UploadSession :=
        { uploadID := uploadID
          fileName := req.fileName
          fileSize := req.fileSize
          md5Hash := req.md5Hash
          chunkSize := req.chunkSize
          totalChunks := totalChunks
          uploadedChunks := []
          userID := userID
          folderID := req.folderID
          workflowID := req.workflowID
          taskID := req.taskID
          description := req.description
          isPrivate := req.isPrivate
          tempDir := tempDir }
      (Except.ok
        { uploadID := uploadID, totalChunks := totalChunks
          chunkSize := req.chunkSize, existingFile := none, isSecUpload := false },
       { σ with sessions := mapSet uploadID session σ.sessions })

/-- `UploadService.UploadChunk` (lines 1057–1085). Session lookup, chunk-checksum
recomputation against the supplied digest, write of the chunk bytes to the staging
slot addressed by index, then mark the index received. The Go code validates the
index nowhere: any `int`, negative or beyond `TotalChunks`, reaches the final
`session.UploadedChunks[chunkIndex] = true`. -/
def uploadChunk (hash : List Nat → Nat) (uploadID : String) (chunkIndex : Int)
    (chunkData : List Nat) (chunkMD5 : Nat) (σ : UploadState) :
    Except UploadError Unit × UploadState :=
  match mapGet uploadID σ.sessions with
  | none => (Except.error .sessionNotFound, σ)
  | some session =>
      if hash chunkData ≠ chunkMD5 then (Except.error .chunkChecksumMismatch, σ)
      else
        let session' :=
          { session with uploadedChunks := session.uploadedChunks.insert chunkIndex }
        (Except.ok (),
         { σ with
             fs := mapSet (chunkPath session.tempDir chunkIndex) chunkData σ.fs
             sessions := mapSet uploadID session' σ.sessions })

/-- The completeness loop of `CompleteUpload`: `for i := 0; i < TotalChunks; i++`
returning the first `i` with `!UploadedChunks[i]`. Fuel is the remaining iteration
count. -/
def firstMissingAux (received : List Int) (i : Int) : Nat → Option Int
  | 0 => none
  | n + 1 =>
      if received.contains i then firstMissingAux received (i + 1) n else some i

/-- First index in `[0, total)` not marked received, if any. -/
def firstMissing (received : List Int) (total : Int) : Option Int :=
  firstMissingAux received 0 total.toNat

/-- The merge loop of `CompleteUpload`: open `chunk_i` for `i = 0 .. total-1` and
append its bytes to the output. A missing chunk file aborts with the failing index
and the bytes already written to the output file (which Go leaves behind). -/
def mergeChunksAux (fs : List (String × List Nat)) (tempDir : String) (i : Int)
    (acc : List Nat) : Nat → Except (Int × List Nat) (List Nat)
  | 0 => Except.ok acc
  | n + 1 =>
      match mapGet (chunkPath tempDir i) fs with
      | none => Except.error (i, acc)
      | some bytes => mergeChunksAux fs tempDir (i + 1) (acc ++ bytes) n

/-- The permanent path of a finalized upload:
`filepath.Join(UploadPath, fmt.Sprintf("%s_%s", MD5Hash, FileName))`. -/
def finalPathOf (cfg : UploadConfig) (session : UploadSession) : String :=
  cfg.uploadPath ++ "/" ++ toString session.md5Hash ++ "_" ++ session.fileName

/-- `UploadService.CompleteUpload` (lines 1088–1181). Completeness check over
`[0, TotalChunks)`; merge into the permanent path (the output file is created and
filled *before* the whole-file hash check, and is not removed on mismatch); hash
comparison against the declared fingerprint; on match, create the `File` row, remove
the staging directory, and delete the session. -/
def completeUpload (hash : List Nat → Nat) (cfg : UploadConfig) (uploadID : String)
    (σ : UploadState) : Except UploadError FileRecord × UploadState :=
  match mapGet uploadID σ.sessions with
  | none => (Except.error .sessionNotFound, σ)
  | some session =>
      match firstMissing session.uploadedChunks session.totalChunks with
      | some i => (Except.error (.chunkMissing i), σ)
      | none =>
          let finalPath := finalPathOf cfg session
          match mergeChunksAux σ.fs session.tempDir 0 [] session.totalChunks.toNat with
          | Except.error (i, written) =>
              (Except.error (.openChunkFailed i),
               { σ with fs := mapSet finalPath written σ.fs })
          | Except.ok merged =>
              if hash merged ≠ session.md5Hash then
                (Except.error .fileChecksumMismatch,
                 { σ with fs := mapSet finalPath merged σ.fs })
              else
                let file : FileRecord :=
                  { id := σ.nextFileID
                    fileName := session.fileName
                    filePath := finalPath
                    fileSize := session.fileSize
                    md5Hash := session.md5Hash
                    mimeType := getMimeType session.fileName
                    ownerID := session.userID
                    folderID := session.folderID
                    workflowID := session.workflowID
                    taskID := session.taskID
                    isPrivate := session.isPrivate
                    description := session.description
                    isDeleted := false }
                (Except.ok file,
                 { σ with
                     files := σ.files ++ [file]
                     nextFileID := σ.nextFileID + 1
                     fs := (mapSet finalPath merged σ.fs).filter
                       (fun e => !(pathHasPrefix session.tempDir e.1))
                     sessions := mapDel uploadID σ.sessions })

/-! ## Download subsystem: data model

`download_service.go`. `CreateBatchDownloadTask` creates a task with `Status:
"pending"` and dispatches exactly one `go processDownloadTask(task.ID)` for it; the
builder and `CleanExpiredTasks` are the only code that ever touches a task
afterwards. `FileIDs` is stored as a JSON array and re-parsed by the builder; the
marshal/unmarshal round trip is the identity, so the field is modelled as the list
itself. -/

/-- The four values of `models.DownloadTask.Status`. -/
inductive TaskStatus where
  | pending
  | processing
  | completed
  | failed
deriving Repr, DecidableEq

/-- A `models.DownloadTask` row. Go zero values at creation: `ZipFilePath`,
`DownloadURL`, `ErrorMsg` empty, `FileSize` 0, `ExpiresAt` nil. -/
structure DownloadTask where
  id : Nat
  userID : Nat
  taskName : String
  fileIDs : List Nat
  status : TaskStatus
  zipFilePath : String
  fileSize : Int
  downloadURL : String
  expiresAt : Option Int
  errorMsg : String
deriving Repr, DecidableEq

/-- The world of the download service: the `download_tasks` table, the `files` table
it reads names and paths from, the source byte store (`uploadPath` area), and the
download directory holding built containers — a zip file is its list of entries
(entry name, entry bytes). -/
structure DownloadState where
  tasks : List DownloadTask
  dbFiles : List FileRecord
  srcFs : List (String × List Nat)
  dlFs : List (String × List (String × List Nat))
deriving Repr, DecidableEq

/-! ## Download subsystem: operations -/

/-- GORM `Model(&DownloadTask{}).Where("id = ?", taskID).Update("status", st)`:
every row with that id (a no-op when none exists). -/
def updateStatus (taskID : Nat) (st : TaskStatus) (ts : List DownloadTask) :
    List DownloadTask :=
  ts.map fun t => if t.id = taskID then { t with status := st } else t

/-- `DownloadService.updateTaskError` (lines 215–221): set `status = "failed"` and
`error_msg`; nothing else on the row changes, and no file is removed. -/
def updateTaskError (taskID : Nat) (msg : String) (ts : List DownloadTask) :
    List DownloadTask :=
  ts.map fun t =>
    if t.id = taskID then { t with status := .failed, errorMsg := msg } else t

/-- The ZIP-building loop of `processDownloadTask`: for each selected `files` row,
open `filepath.Join(uploadPath, file.FilePath)` and stream it into the container as
an entry named `file.FileName`. On an open/copy failure the loop stops, returning
the entries already streamed (they remain in the file on disk) and the error
message recorded by `updateTaskError`. -/
def addFilesToZip (srcFs : List (String × List Nat)) (uploadPath : String) :
    List FileRecord → List (String × List Nat) →
    List (String × List Nat) × Option String
  | [], entries => (entries, none)
  | f :: rest, entries =>
      match mapGet (uploadPath ++ "/" ++ f.filePath) srcFs with
      | none => (entries, some ("添加文件到ZIP失败: " ++ f.filePath))
      | some bytes => addFilesToZip srcFs uploadPath rest (entries ++ [(f.fileName, bytes)])

/-- The container size reported by `zipFile.Stat()` at completion, abstracted to the
total payload length of the entries. -/
def zipSize (entries : List (String × List Nat)) : Int :=
  (entries.map fun e => (e.2.length : Int)).foldl (· + ·) 0

/-- The container path: `filepath.Join(downloadPath,
fmt.Sprintf("%s_%d_%d.zip", TaskName, UserID, now))`. -/
def zipPathOf (downloadPath : String) (t : DownloadTask) (now : Int) : String :=
  downloadPath ++ "/" ++ t.taskName ++ "_" ++ toString t.userID ++ "_" ++
    toString now ++ ".zip"

/-- `DownloadService.processDownloadTask` (lines 112–193), instrumented with the
list of status values it writes to the task row, in order. Steps, as in the source:
unconditional update to `processing`; fetch the row (failure → `failed`); select the
`files` rows whose id is in the task's list; create the container file; stream
entries (first failure → `failed` with the partial container left on disk); on
success update status/path/size/URL and stamp `ExpiresAt = now + 24h`. -/
def processDownloadTask (uploadPath downloadPath baseURL : String) (now : Int)
    (taskID : Nat) (σ : DownloadState) : DownloadState × List TaskStatus :=
  let σ1 := { σ with tasks := updateStatus taskID .processing σ.tasks }
  match σ1.tasks.find? (fun t => t.id = taskID) with
  | none =>
      ({ σ1 with tasks := updateTaskError taskID "获取任务信息失败" σ1.tasks },
       [.processing, .failed])
  | some task =>
      let files := σ1.dbFiles.filter fun f => task.fileIDs.contains f.id
      let zipFilePath := zipPathOf downloadPath task now
      match addFilesToZip σ1.srcFs uploadPath files [] with
      | (entries, some msg) =>
          ({ σ1 with
               dlFs := mapSet zipFilePath entries σ1.dlFs
               tasks := updateTaskError taskID msg σ1.tasks },
           [.processing, .failed])
      | (entries, none) =>
          let size := zipSize entries
          let url := baseURL ++ "/api/v1/download/zip/" ++ task.taskName ++ "_" ++
            toString task.userID ++ "_" ++ toString now ++ ".zip"
          ({ σ1 with
               dlFs := mapSet zipFilePath entries σ1.dlFs
               tasks := σ1.tasks.map fun t =>
                 if t.id = taskID then
                   { t with
                       status := .completed
                       zipFilePath := zipFilePath
                       fileSize := size
                       downloadURL := url
                       expiresAt := some (now + 24 * 3600) }
                 else t },
           [.processing, .completed])

/-- The selection predicate of `CleanExpiredTasks`:
`expires_at < ? AND status = 'completed'` with `now` bound. A SQL comparison
against a NULL `expires_at` is not satisfied. -/
def isExpiredCompleted (now : Int) (t : DownloadTask) : Bool :=
  (match t.expiresAt with
   | some e => decide (e < now)
   | none => false) && t.status = .completed

/-- `DownloadService.CleanExpiredTasks` (lines 372–390): find the expired completed
tasks, `os.Remove` each one's non-empty `ZipFilePath` (errors ignored), then delete
those rows (GORM soft delete: the rows vanish from every later query). -/
def cleanExpiredTasks (now : Int) (σ : DownloadState) : DownloadState :=
  let expired := σ.tasks.filter (isExpiredCompleted now)
  { σ with
      dlFs := expired.foldl
        (fun fs t => if t.zipFilePath ≠ "" then mapDel t.zipFilePath fs else fs)
        σ.dlFs
      tasks := σ.tasks.filter fun t => !(isExpiredCompleted now t) }

/-! ## The spec's archive status machine

§4.6 of the specification: `pending->processing`, `processing->completed`,
`processing->failed` are the only valid moves, and `completed`/`failed` are
terminal. Stated from the spec's words, to be compared with what
`processDownloadTask` actually writes. -/

/-- The transition relation the spec allows on `ArchiveTask.status`. -/
def allowedTransition : TaskStatus → TaskStatus → Bool
  | .pending, .processing => true
  | .processing, .completed => true
  | .processing, .failed => true
  | _, _ => false

/-! ## Concrete fixtures

Closed runs of the embedded operations, used by the counterexamples and witnesses.
`demoHash` instantiates the abstract digest with a plain byte sum — every fact below
that depends on it only compares digest values for equality, as the Go code does. -/

/-- A concrete digest function standing in for MD5 in closed runs. -/
def demoHash : List Nat → Nat := fun l => l.foldl (· + ·) 0

def demoCfg : UploadConfig := ⟨"/tmp", "/up"⟩

/-- Fresh upload world: no sessions, no files, auto-increment at 1, empty disk. -/
def upSt0 : UploadState := ⟨[], [], 1, []⟩

/-- Init request: "a.txt", 4 bytes declared, fingerprint 3 = demoHash [1, 2],
chunk size 4 → one chunk. -/
def demoReqA : InitUploadRequest := ⟨"a.txt", 4, 3, 4, 0, 0, 0, "", false⟩

/-- After `InitUpload` by user 7 at time 100: session "7_3_100", total_chunks 1. -/
def upSt1 : UploadState := (initUpload demoCfg 100 demoReqA 7 upSt0).2

/-- After uploading chunk index 5 (out of range for total_chunks = 1) with correct
checksum: the call is accepted and 5 is marked received. -/
def upSt2 : UploadState := (uploadChunk demoHash "7_3_100" 5 [9] 9 upSt1).2

/-- After additionally uploading the in-range chunk 0 = [1, 2] (checksum 3):
received set [0, 5] of size 2 > total_chunks = 1. -/
def upSt3 : UploadState := (uploadChunk demoHash "7_3_100" 0 [1, 2] 3 upSt2).2

/-- The `File` row finalizing session "7_3_100" creates. -/
def demoFileA : FileRecord :=
  ⟨1, "a.txt", "/up/3_a.txt", 4, 3, "text/plain", 7, 0, 0, 0, false, "", false⟩

/-- After a successful `CompleteUpload` of "7_3_100": session gone, one file row,
one stored file. -/
def upStDone : UploadState := (completeUpload demoHash demoCfg "7_3_100" upSt3).2

/-- A second owner (user 8) declares the same fingerprint 3 and size 4. -/
def demoReqB : InitUploadRequest := ⟨"c.txt", 4, 3, 4, 1, 0, 0, "", true⟩

/-- The dedup-hit `File` row for user 8, pointing at demoFileA's stored path. -/
def demoFileB : FileRecord :=
  ⟨2, "c.txt", "/up/3_a.txt", 4, 3, "text/plain", 8, 1, 0, 0, true, "", false⟩

/-- After user 8's `InitUpload` at time 300 against `upStDone`: instant upload. -/
def upStDedup : UploadState := (initUpload demoCfg 300 demoReqB 8 upStDone).2

/-- Init request whose declared fingerprint 999 will not match its bytes. -/
def demoReqBad : InitUploadRequest := ⟨"b.txt", 2, 999, 2, 0, 0, 0, "", false⟩

/-- Session "7_999_200" with declared fingerprint 999, total_chunks 1. -/
def badSt1 : UploadState := (initUpload demoCfg 200 demoReqBad 7 upSt0).2

/-- Chunk 0 = [1, 2] uploaded with its correct chunk checksum 3. -/
def badSt2 : UploadState := (uploadChunk demoHash "7_999_200" 0 [1, 2] 3 badSt1).2

/-- After the finalize attempt that fails the whole-file integrity check
(demoHash [1, 2] = 3 ≠ 999). -/
def badSt3 : UploadState := (completeUpload demoHash demoCfg "7_999_200" badSt2).2

/-- Source file row id 10, present on disk in the download fixtures. -/
def dlFile10 : FileRecord := ⟨10, "f10.txt", "u/f10", 3, 0, "", 7, 0, 0, 0, false, "", false⟩

/-- Source file row id 11, missing from disk in the download fixtures. -/
def dlFile11 : FileRecord := ⟨11, "f11.txt", "u/f11", 3, 0, "", 7, 0, 0, 0, false, "", false⟩

/-- A pending archive task over files 10 and 11. -/
def dlTask1 : DownloadTask := ⟨1, 7, "t", [10, 11], .pending, "", 0, "", none, ""⟩

/-- Download world where file 10's bytes exist but file 11's do not: the build of
`dlTask1` fails while streaming. -/
def dlSt0 : DownloadState := ⟨[dlTask1], [dlFile10, dlFile11], [("/up/u/f10", [1, 2, 3])], []⟩

/-- After the background builder runs `dlTask1` at time 500 and hits the missing
source file. -/
def dlSt1 : DownloadState := (processDownloadTask "/up" "/dl" "http://h" 500 1 dlSt0).1

/-- A completed task whose expiry (900) is past at sweep time 1000. -/
def reapTaskDone : DownloadTask :=
  ⟨2, 7, "d", [10], .completed, "/dl/d_7_100.zip", 3, "u", some 900, ""⟩

/-- A completed task whose expiry (2000) is still ahead at sweep time 1000. -/
def reapTaskFresh : DownloadTask :=
  ⟨3, 7, "e", [10], .completed, "/dl/e_7_100.zip", 3, "u", some 2000, ""⟩

/-- A failed task; its record carries no container path, but its partial container
sits at "/dl/t_7_500.zip". -/
def reapTaskFailed : DownloadTask := ⟨4, 7, "t", [10, 11], .failed, "", 0, "", none, "boom"⟩

/-- Sweep fixture: one expired completed task, one fresh completed task, one failed
task with a stray partial container, one pending task. -/
def reapSt0 : DownloadState :=
  ⟨[reapTaskDone, reapTaskFresh, reapTaskFailed, dlTask1], [], [],
   [("/dl/d_7_100.zip", [("x", [1])]), ("/dl/e_7_100.zip", [("y", [2])]),
    ("/dl/t_7_500.zip", [("f10.txt", [1, 2, 3])])]⟩

/-- The failed record of `dlTask1` after its build hits the missing source file. -/
def dlTask1Failed : DownloadTask :=
  ⟨1, 7, "t", [10, 11], .failed, "", 0, "", none, "添加文件到ZIP失败: u/f11"⟩

/-- The session registered in `upSt1`: empty received set. -/
def demoSessA0 : UploadSession :=
  ⟨"7_3_100", "a.txt", 4, 3, 4, 1, [], 7, 0, 0, 0, "", false, "/tmp/7_3_100"⟩

/-- The session in `upSt2`: only the out-of-range index 5 received. -/
def demoSessOut : UploadSession :=
  ⟨"7_3_100", "a.txt", 4, 3, 4, 1, [5], 7, 0, 0, 0, "", false, "/tmp/7_3_100"⟩

/-- The session in `badSt2`: chunk 0 received, declared fingerprint 999. -/
def demoSessBad : UploadSession :=
  ⟨"7_999_200", "b.txt", 2, 999, 2, 1, [0], 7, 0, 0, 0, "", false, "/tmp/7_999_200"⟩

/-! ## Helper lemmas: maps, the completeness scan, task-table updates -/

theorem mapGet_mapSet_self {α : Type} (k : String) (v : α) (l : List (String × α)) :
    mapGet k (mapSet k v l) = some v := by
  induction l with
  | nil => simp [mapSet, mapGet]
  | cons e rest ih =>
      obtain ⟨k', v'⟩ := e
      by_cases h : k' = k
      · simp [mapSet, mapGet, h]
      · simp [mapSet, mapGet, h, ih]

theorem mapSet_mapSet_self {α : Type} (k : String) (v w : α) (l : List (String × α)) :
    mapSet k v (mapSet k w l) = mapSet k v l := by
  induction l with
  | nil => simp [mapSet]
  | cons e rest ih =>
      obtain ⟨k', v'⟩ := e
      by_cases h : k' = k
      · simp [mapSet, h]
      · simp [mapSet, h, ih]

theorem mapGet_mapDel_self {α : Type} (k : String) (l : List (String × α)) :
    mapGet k (mapDel k l) = none := by
  induction l with
  | nil => rfl
  | cons e rest ih =>
      obtain ⟨k', v'⟩ := e
      by_cases h : k' = k
      · simp [mapDel, mapGet, h, ih]
      · simp [mapDel, mapGet, h, ih]

theorem mapGet_mapDel_of_ne {α : Type} {q p : String} (h : q ≠ p) (l : List (String × α)) :
    mapGet p (mapDel q l) = mapGet p l := by
  induction l with
  | nil => rfl
  | cons e rest ih =>
      obtain ⟨k', v'⟩ := e
      by_cases hk : k' = q
      · subst hk
        simp [mapDel, mapGet, h, ih]
      · by_cases hp : k' = p <;> simp [mapDel, mapGet, hk, hp, ih, Ne.symm h]

theorem firstMissingAux_eq_none (received : List Int) :
    ∀ (n : Nat) (i : Int), firstMissingAux received i n = none ↔
      ∀ j : Int, i ≤ j → j < i + n → j ∈ received := by
  intro n
  induction n with
  | zero =>
      intro i
      constructor
      · intro _ j h1 h2
        exfalso
        omega
      · intro _
        rfl
  | succ n ih =>
      intro i
      by_cases hc : i ∈ received
      · constructor
        · intro h j h1 h2
          rcases eq_or_lt_of_le h1 with rfl | hlt
          · exact hc
          · have hrec := (ih (i + 1)).mp (by simpa [firstMissingAux, hc] using h)
            exact hrec j (by omega) (by omega)
        · intro h
          have hrec : firstMissingAux received (i + 1) n = none :=
            (ih (i + 1)).mpr (fun j h1 h2 => h j (by omega) (by omega))
          simpa [firstMissingAux, hc] using hrec
      · constructor
        · intro h
          exfalso
          simp [firstMissingAux, hc] at h
        · intro h
          exact absurd (h i le_rfl (by omega)) hc

theorem firstMissingAux_eq_some (received : List Int) :
    ∀ (n : Nat) (i m : Int), firstMissingAux received i n = some m →
      m ∉ received ∧ i ≤ m ∧ m < i + n := by
  intro n
  induction n with
  | zero =>
      intro i m h
      exact absurd h (by simp [firstMissingAux])
  | succ n ih =>
      intro i m h
      by_cases hc : i ∈ received
      · have h2 : firstMissingAux received (i + 1) n = some m := by
          simpa [firstMissingAux, hc] using h
        obtain ⟨a, b, c⟩ := ih (i + 1) m h2
        exact ⟨a, by omega, by omega⟩
      · have hm : i = m := by simpa [firstMissingAux, hc] using h
        subst hm
        exact ⟨hc, le_rfl, by omega⟩

theorem firstMissing_eq_none (received : List Int) (total : Int) :
    firstMissing received total = none ↔
      ∀ j : Int, 0 ≤ j → j < total → j ∈ received := by
  unfold firstMissing
  rw [firstMissingAux_eq_none]
  constructor
  · intro h j h1 h2
    exact h j h1 (by omega)
  · intro h j h1 h2
    exact h j h1 (by omega)

theorem firstMissing_eq_some (received : List Int) (total m : Int)
    (h : firstMissing received total = some m) :
    m ∉ received ∧ 0 ≤ m ∧ m < total := by
  obtain ⟨a, b, c⟩ := firstMissingAux_eq_some received total.toNat 0 m h
  exact ⟨a, b, by omega⟩


theorem find?_updateStatus (taskID : Nat) (st : TaskStatus) (ts : List DownloadTask) :
    (updateStatus taskID st ts).find? (fun u => u.id = taskID) =
      (ts.find? (fun u => u.id = taskID)).map (fun t => { t with status := st }) := by
  induction ts with
  | nil => rfl
  | cons t rest ih =>
      by_cases h : t.id = taskID
      · simp [updateStatus, List.find?_cons, h]
      · simp [updateStatus, List.find?_cons, h] at ih ⊢
        exact ih

theorem mapGet_reapFold_of_ne (p : String) :
    ∀ (ts : List DownloadTask) (fs : List (String × List (String × List Nat))),
      (∀ t ∈ ts, t.zipFilePath ≠ p) →
      mapGet p (ts.foldl
        (fun fs t => if t.zipFilePath ≠ "" then mapDel t.zipFilePath fs else fs) fs) =
        mapGet p fs := by
  intro ts
  induction ts with
  | nil =>
      intro fs _
      rfl
  | cons t rest ih =>
      intro fs h
      simp only [List.foldl_cons]
      rw [ih _ (fun u hu => h u (List.mem_cons_of_mem _ hu))]
      by_cases hz : t.zipFilePath ≠ ""
      · rw [if_pos hz]
        exact mapGet_mapDel_of_ne (h t (List.mem_cons_self _ _)) fs
      · rw [if_neg hz]

theorem mapGet_mapSet_of_ne {α : Type} {q p : String} (h : p ≠ q) (v : α)
    (l : List (String × α)) : mapGet p (mapSet q v l) = mapGet p l := by
  induction l with
  | nil => simp [mapSet, mapGet, Ne.symm h]
  | cons e rest ih =>
      obtain ⟨k', v'⟩ := e
      by_cases hk : k' = q
      · subst hk
        simp [mapSet, mapGet, Ne.symm h, ih]
      · by_cases hp : k' = p <;> simp [mapSet, mapGet, hk, hp, ih, h, Ne.symm h]

theorem updateTaskError_updateStatus (taskID : Nat) (msg : String) (st : TaskStatus)
    (ts : List DownloadTask) :
    updateTaskError taskID msg (updateStatus taskID st ts) =
      updateTaskError taskID msg ts := by
  unfold updateTaskError updateStatus
  rw [List.map_map]
  refine List.map_congr_left ?_
  intro a _
  by_cases h : a.id = taskID <;> simp [Function.comp, h]

theorem mem_updateTaskError_of_eq (taskID : Nat) (msg : String) (ts : List DownloadTask)
    (u : DownloadTask) (hu : u ∈ ts) (h : u.id = taskID) :
    { u with status := TaskStatus.failed, errorMsg := msg } ∈
      updateTaskError taskID msg ts := by
  have hm := List.mem_map_of_mem
    (fun t => if t.id = taskID then
      { t with status := TaskStatus.failed, errorMsg := msg } else t) hu
  simpa [updateTaskError, h] using hm

theorem mem_updateTaskError_of_ne (taskID : Nat) (msg : String) (ts : List DownloadTask)
    (u : DownloadTask) (hu : u ∈ ts) (h : u.id ≠ taskID) :
    u ∈ updateTaskError taskID msg ts := by
  have hm := List.mem_map_of_mem
    (fun t => if t.id = taskID then
      { t with status := TaskStatus.failed, errorMsg := msg } else t) hu
  simpa [updateTaskError, h] using hm

/-! ## The claims -/

/-- C1: the claim says a chunk-upload whose index is negative or at least
`total_chunks` never marks that index received. `UploadChunk` validates the index
nowhere, so the claim fails on the code: on session "7_3_100" with `total_chunks = 1`,
uploading index 5 and then index -1 (each with a correct chunk checksum) succeeds and
both indices are marked received. The spec's invariant
`received_indices ⊆ [0, total_chunks)` is clearly the intended behaviour; the missing
bounds check is a bug in the code. -/
theorem uploadChunk_marks_out_of_range_index :
    (uploadChunk demoHash "7_3_100" 5 [9] 9 upSt1).1 = Except.ok () ∧
    (mapGet "7_3_100" upSt2.sessions).map (fun s => (s.totalChunks, s.uploadedChunks))
      = some (1, [5]) ∧
    (uploadChunk demoHash "7_3_100" (-1) [4] 4 upSt2).1 = Except.ok () ∧
    (mapGet "7_3_100" (uploadChunk demoHash "7_3_100" (-1) [4] 4 upSt2).2.sessions).map
      (fun s => s.uploadedChunks) = some [-1, 5] :=
  ⟨rfl, rfl, rfl, rfl⟩

/-- C2 counterexample: after finalize has begun — and failed on the whole-file
integrity check — a later chunk upload to the same session does not fail with any
conflict error: it returns success and is applied (the staged chunk file is
overwritten). The code has no conflict detection and its error taxonomy
(`UploadError`) has no conflict constructor. -/
theorem chunk_after_finalize_applied_cx :
    (completeUpload demoHash demoCfg "7_999_200" badSt2).1 =
      Except.error .fileChecksumMismatch ∧
    (uploadChunk demoHash "7_999_200" 0 [5] 5 badSt3).1 = Except.ok () ∧
    mapGet "/tmp/7_999_200/chunk_0" (uploadChunk demoHash "7_999_200" 0 [5] 5 badSt3).2.fs
      = some [5] :=
  ⟨rfl, rfl, rfl⟩

/-- C2 (amended): no conflict error exists. After a finalize that succeeds, the
session is deleted, and a later chunk upload fails with the session-not-found error
(and changes nothing); after a finalize attempt that fails the whole-file integrity
check, the session registry is unchanged and a later chunk upload with a correct
checksum is accepted and applied. -/
theorem completeUpload_then_uploadChunk_no_conflict
    (hash : List Nat → Nat) (cfg : UploadConfig) (uid : String) (σ : UploadState) :
    (∀ f, (completeUpload hash cfg uid σ).1 = Except.ok f →
      ∀ (i : Int) (data : List Nat) (ck : Nat),
        uploadChunk hash uid i data ck (completeUpload hash cfg uid σ).2 =
          (Except.error .sessionNotFound, (completeUpload hash cfg uid σ).2)) ∧
    ((completeUpload hash cfg uid σ).1 = Except.error .fileChecksumMismatch →
      (completeUpload hash cfg uid σ).2.sessions = σ.sessions ∧
      ∀ (i : Int) (data : List Nat) (ck : Nat), hash data = ck →
        (uploadChunk hash uid i data ck (completeUpload hash cfg uid σ).2).1 =
          Except.ok ()) := by
  rcases hg : mapGet uid σ.sessions with _ | s
  · constructor
    · intro f hok
      simp [completeUpload, hg] at hok
    · intro hmm
      simp [completeUpload, hg] at hmm
  · rcases hfm : firstMissing s.uploadedChunks s.totalChunks with _ | m
    · rcases hmg : mergeChunksAux σ.fs s.tempDir 0 [] s.totalChunks.toNat with e | merged
      · obtain ⟨ei, ew⟩ := e
        constructor
        · intro f hok
          simp [completeUpload, hg, hfm, hmg] at hok
        · intro hmm
          simp [completeUpload, hg, hfm, hmg] at hmm
      · by_cases hh : hash merged ≠ s.md5Hash
        · constructor
          · intro f hok
            simp only [completeUpload, hg, hfm, hmg] at hok
            rw [if_pos hh] at hok
            simp at hok
          · intro _
            refine ⟨?_, ?_⟩
            · simp only [completeUpload, hg, hfm, hmg]
              rw [if_pos hh]
            · intro i data ck hckgood
              simp only [completeUpload, hg, hfm, hmg]
              rw [if_pos hh]
              simp only [uploadChunk, hg]
              rw [if_neg (by simp [hckgood])]
        · constructor
          · intro f hok i data ck
            simp only [completeUpload, hg, hfm, hmg]
            rw [if_neg hh]
            simp only [uploadChunk]
            rw [mapGet_mapDel_self]
          · intro hmm
            simp only [completeUpload, hg, hfm, hmg] at hmm
            rw [if_neg hh] at hmm
            simp at hmm
    · constructor
      · intro f hok
        simp [completeUpload, hg, hfm] at hok
      · intro hmm
        simp [completeUpload, hg, hfm] at hmm

/-- Witness for C2: on the concrete completed session "7_3_100", a later chunk
upload fails with the session-not-found error and leaves the state unchanged. -/
theorem completeUpload_then_uploadChunk_no_conflict_witness :
    uploadChunk demoHash "7_3_100" 0 [1, 2] 3 upStDone =
      (Except.error .sessionNotFound, upStDone) :=
  (completeUpload_then_uploadChunk_no_conflict demoHash demoCfg "7_3_100" upSt3).1
    demoFileA rfl 0 [1, 2] 3

/-- C3 counterexample: in session "7_3_100" (`total_chunks = 1`) the received set is
[0, 5] — its size 2 exceeds `total_chunks`, refuting `|received| ≤ total_chunks` —
and finalize nevertheless succeeds, refuting "finalize succeeds iff the number of
received indices equals total_chunks" in both directions at once (success with
count 2 ≠ 1). -/
theorem finalize_succeeds_count_exceeds_total_cx :
    (mapGet "7_3_100" upSt3.sessions).map
      (fun s => (s.totalChunks, s.uploadedChunks.length)) = some (1, 2) ∧
    (completeUpload demoHash demoCfg "7_3_100" upSt3).1 = Except.ok demoFileA :=
  ⟨rfl, rfl⟩

/-- C3 (amended): the received set may contain out-of-range indices (C1), so its
cardinality can exceed `total_chunks` and is not what finalize checks. Finalize's
completeness check passes iff every index in `[0, total_chunks)` is received: when
`CompleteUpload` fails with the chunk-missing error naming index `i`, that `i` is an
unreceived in-range index and the state is completely unchanged (no file record);
when every in-range index is received the chunk-missing error is impossible; and a
successful finalize implies every in-range index was received. -/
theorem completeUpload_completeness_check
    (hash : List Nat → Nat) (cfg : UploadConfig) (uid : String) (σ : UploadState)
    (s : UploadSession) (hs : mapGet uid σ.sessions = some s) :
    (∀ i : Int, (completeUpload hash cfg uid σ).1 = Except.error (.chunkMissing i) →
      i ∉ s.uploadedChunks ∧ 0 ≤ i ∧ i < s.totalChunks ∧
      (completeUpload hash cfg uid σ).2 = σ) ∧
    ((∀ i : Int, 0 ≤ i → i < s.totalChunks → i ∈ s.uploadedChunks) →
      ∀ i : Int, (completeUpload hash cfg uid σ).1 ≠ Except.error (.chunkMissing i)) ∧
    (∀ f, (completeUpload hash cfg uid σ).1 = Except.ok f →
      ∀ i : Int, 0 ≤ i → i < s.totalChunks → i ∈ s.uploadedChunks) := by
  rcases hfm : firstMissing s.uploadedChunks s.totalChunks with _ | m
  · have hcov := (firstMissing_eq_none s.uploadedChunks s.totalChunks).mp hfm
    refine ⟨?_, ?_, ?_⟩
    · intro i hi
      exfalso
      rcases hmg : mergeChunksAux σ.fs s.tempDir 0 [] s.totalChunks.toNat with e | merged
      · obtain ⟨ei, ew⟩ := e
        simp [completeUpload, hs, hfm, hmg] at hi
      · by_cases hh : hash merged ≠ s.md5Hash
        · simp only [completeUpload, hs, hfm, hmg] at hi
          rw [if_pos hh] at hi
          simp at hi
        · simp only [completeUpload, hs, hfm, hmg] at hi
          rw [if_neg hh] at hi
          simp at hi
    · intro _ i hi
      rcases hmg : mergeChunksAux σ.fs s.tempDir 0 [] s.totalChunks.toNat with e | merged
      · obtain ⟨ei, ew⟩ := e
        simp [completeUpload, hs, hfm, hmg] at hi
      · by_cases hh : hash merged ≠ s.md5Hash
        · simp only [completeUpload, hs, hfm, hmg] at hi
          rw [if_pos hh] at hi
          simp at hi
        · simp only [completeUpload, hs, hfm, hmg] at hi
          rw [if_neg hh] at hi
          simp at hi
    · intro f _ i h1 h2
      exact hcov i h1 h2
  · obtain ⟨hnot, hge, hlt⟩ := firstMissing_eq_some s.uploadedChunks s.totalChunks m hfm
    refine ⟨?_, ?_, ?_⟩
    · intro i hi
      simp only [completeUpload, hs, hfm] at hi ⊢
      have hmi : m = i := by simpa using hi
      subst hmi
      exact ⟨hnot, hge, hlt, trivial⟩
    · intro hcover i
      have : firstMissing s.uploadedChunks s.totalChunks = none :=
        (firstMissing_eq_none s.uploadedChunks s.totalChunks).mpr hcover
      rw [this] at hfm
      exact absurd hfm (by simp)
    · intro f hf
      simp [completeUpload, hs, hfm] at hf

/-- Witness for C3: finalizing session "7_3_100" while only index 5 is received
fails naming missing chunk 0, an in-range unreceived index, and changes nothing. -/
theorem completeUpload_completeness_check_witness :
    (0 : Int) ∉ demoSessOut.uploadedChunks ∧ (0 : Int) ≤ 0 ∧
      (0 : Int) < demoSessOut.totalChunks ∧
      (completeUpload demoHash demoCfg "7_3_100" upSt2).2 = upSt2 :=
  (completeUpload_completeness_check demoHash demoCfg "7_3_100" upSt2 demoSessOut rfl).1
    0 rfl

/-- C4 counterexample: the finalize of session "7_999_200" fails the whole-file
integrity check and creates no `File` row, and the session (received set and staged
chunks) is intact — but "nothing is created" is refuted: the merged output has been
written to the permanent upload path "/up/999_b.txt" and is left there. -/
theorem failed_finalize_leaves_merged_file_cx :
    (completeUpload demoHash demoCfg "7_999_200" badSt2).1 =
      Except.error .fileChecksumMismatch ∧
    badSt3.files = [] ∧
    (mapGet "7_999_200" badSt3.sessions).map (fun s => s.uploadedChunks) = some [0] ∧
    mapGet "/up/999_b.txt" badSt3.fs = some [1, 2] :=
  ⟨rfl, rfl, rfl, rfl⟩

/-- C4 (amended): when the merged bytes hash differently from the declared
fingerprint, `CompleteUpload` fails with the file-checksum-mismatch error and the
post-state equals the pre-state except that the merged file has been written at the
permanent upload path: the session registry, the files table and its counter are
unchanged (no FileEntry / content record), the staging area is intact and the
session remains available for retry — but the merged output file is not removed. -/
theorem completeUpload_integrity_mismatch_frame
    (hash : List Nat → Nat) (cfg : UploadConfig) (uid : String) (σ : UploadState)
    (s : UploadSession) (merged : List Nat)
    (hs : mapGet uid σ.sessions = some s)
    (hcomplete : firstMissing s.uploadedChunks s.totalChunks = none)
    (hmerge : mergeChunksAux σ.fs s.tempDir 0 [] s.totalChunks.toNat = Except.ok merged)
    (hmismatch : hash merged ≠ s.md5Hash) :
    completeUpload hash cfg uid σ =
      (Except.error .fileChecksumMismatch,
       { σ with fs := mapSet (finalPathOf cfg s) merged σ.fs }) := by
  simp only [completeUpload, hs, hcomplete, hmerge]
  rw [if_pos hmismatch]

/-- Witness for C4: the concrete mismatching finalize of "7_999_200": error, frame
equation with the merged file written at the permanent path. -/
theorem completeUpload_integrity_mismatch_frame_witness :
    completeUpload demoHash demoCfg "7_999_200" badSt2 =
      (Except.error .fileChecksumMismatch,
       { badSt2 with fs := mapSet (finalPathOf demoCfg demoSessBad) [1, 2] badSt2.fs }) :=
  completeUpload_integrity_mismatch_frame demoHash demoCfg "7_999_200" badSt2
    demoSessBad [1, 2] rfl rfl rfl (by decide)

/-- C5: a chunk upload whose supplied checksum differs from the recomputed hash of
the bytes is rejected with the chunk-checksum-mismatch error and the state — session
registry, received set, staging area, files table — is exactly unchanged; a
subsequent upload of the same index whose bytes match their checksum succeeds and
the index becomes received. -/
theorem uploadChunk_checksum_mismatch_rejected
    (hash : List Nat → Nat) (uid : String) (i : Int)
    (data : List Nat) (ck : Nat) (data' : List Nat) (ck' : Nat)
    (σ : UploadState) (s : UploadSession)
    (hs : mapGet uid σ.sessions = some s)
    (hbad : hash data ≠ ck) (hgood : hash data' = ck') :
    uploadChunk hash uid i data ck σ = (Except.error .chunkChecksumMismatch, σ) ∧
    (uploadChunk hash uid i data' ck' σ).1 = Except.ok () ∧
    mapGet uid (uploadChunk hash uid i data' ck' σ).2.sessions =
      some { s with uploadedChunks := s.uploadedChunks.insert i } ∧
    i ∈ s.uploadedChunks.insert i := by
  refine ⟨?_, ?_, ?_, ?_⟩
  · simp only [uploadChunk, hs]
    rw [if_pos hbad]
  · simp only [uploadChunk, hs]
    rw [if_neg (by simp [hgood])]
  · simp only [uploadChunk, hs]
    rw [if_neg (by simp [hgood])]
    exact mapGet_mapSet_self uid _ σ.sessions
  · exact List.mem_insert_self i s.uploadedChunks

/-- Witness for C5: chunk 0 of session "7_3_100" with wrong checksum 7 is rejected
leaving the state unchanged; resubmitted with correct checksum 3 it succeeds and 0
is received. -/
theorem uploadChunk_checksum_mismatch_rejected_witness :
    uploadChunk demoHash "7_3_100" 0 [1, 2] 7 upSt1 =
      (Except.error .chunkChecksumMismatch, upSt1) ∧
    (uploadChunk demoHash "7_3_100" 0 [1, 2] 3 upSt1).1 = Except.ok () ∧
    mapGet "7_3_100" (uploadChunk demoHash "7_3_100" 0 [1, 2] 3 upSt1).2.sessions =
      some { demoSessA0 with uploadedChunks := demoSessA0.uploadedChunks.insert 0 } ∧
    (0 : Int) ∈ demoSessA0.uploadedChunks.insert 0 :=
  uploadChunk_checksum_mismatch_rejected demoHash "7_3_100" 0 [1, 2] 7 [1, 2] 3
    upSt1 demoSessA0 rfl (by decide) rfl

/-- C6: re-running a successful chunk upload (same index, same bytes, same
checksum) succeeds again and is a no-op: the state after the repeated call is
exactly the state after the first — received set, staged chunk file and all other
session state included. -/
theorem uploadChunk_idempotent
    (hash : List Nat → Nat) (uid : String) (i : Int) (data : List Nat) (ck : Nat)
    (σ σ₁ : UploadState)
    (h : uploadChunk hash uid i data ck σ = (Except.ok (), σ₁)) :
    uploadChunk hash uid i data ck σ₁ = (Except.ok (), σ₁) := by
  rcases hg : mapGet uid σ.sessions with _ | s
  · simp [uploadChunk, hg] at h
  · simp only [uploadChunk, hg] at h
    by_cases hck : hash data ≠ ck
    · rw [if_pos hck] at h
      simp at h
    · rw [if_neg hck] at h
      have hσ := congrArg Prod.snd h
      simp only at hσ
      subst hσ
      simp [uploadChunk, mapGet_mapSet_self, hck, mapSet_mapSet_self,
        List.insert_of_mem (List.mem_insert_self i s.uploadedChunks)]

/-- Witness for C6: re-uploading chunk 0 of "7_3_100" with the same bytes returns
success and leaves the state exactly at `upSt3`. -/
theorem uploadChunk_idempotent_witness :
    uploadChunk demoHash "7_3_100" 0 [1, 2] 3 upSt3 = (Except.ok (), upSt3) :=
  uploadChunk_idempotent demoHash "7_3_100" 0 [1, 2] 3 upSt2 upSt3 rfl

/-- C7: when the declared fingerprint+size matches an existing non-deleted file
row, `InitUpload` creates no session, transfers no bytes (filesystem unchanged), and
appends exactly one new file row that points at the existing row's stored path,
returned as an instant-upload response; when nothing matches, the files table is
unchanged and a fresh session with an empty received set is registered. Consequently
(closed two-owner run): after user 7's full upload and user 8's instant upload of
the same content, the files table holds two rows — owners 7 and 8 — both pointing at
"/up/3_a.txt", while the disk holds exactly one copy of the bytes. -/
theorem initUpload_dedup
    (cfg : UploadConfig) (now : Int) (req : InitUploadRequest) (u : Nat)
    (σ : UploadState) :
    (∀ ex, findDedup req.md5Hash req.fileSize σ.files = some ex →
      (initUpload cfg now req u σ).2.sessions = σ.sessions ∧
      (initUpload cfg now req u σ).2.fs = σ.fs ∧
      ∃ nf : FileRecord,
        (initUpload cfg now req u σ).1 = Except.ok ⟨"", 0, 0, some nf, true⟩ ∧
        nf.filePath = ex.filePath ∧ nf.md5Hash = ex.md5Hash ∧
        nf.fileSize = ex.fileSize ∧ nf.ownerID = u ∧
        (initUpload cfg now req u σ).2.files = σ.files ++ [nf]) ∧
    (findDedup req.md5Hash req.fileSize σ.files = none →
      (initUpload cfg now req u σ).2.files = σ.files ∧
      ∃ resp sess,
        (initUpload cfg now req u σ).1 = Except.ok resp ∧
        resp.isSecUpload = false ∧ resp.existingFile = none ∧
        mapGet resp.uploadID (initUpload cfg now req u σ).2.sessions = some sess ∧
        sess.uploadedChunks = []) ∧
    (upStDedup.files.map (fun f => f.filePath) = ["/up/3_a.txt", "/up/3_a.txt"] ∧
     upStDedup.files.map (fun f => f.ownerID) = [7, 8] ∧
     upStDedup.fs = [("/up/3_a.txt", [1, 2])] ∧
     upStDedup.sessions = []) := by
  refine ⟨?_, ?_, rfl, rfl, rfl, rfl⟩
  · intro ex hd
    refine ⟨by simp [initUpload, hd], by simp [initUpload, hd],
      ⟨σ.nextFileID, req.fileName, ex.filePath, ex.fileSize, ex.md5Hash, ex.mimeType,
        u, req.folderID, req.workflowID, req.taskID, req.isPrivate, req.description,
        false⟩,
      by simp [initUpload, hd], rfl, rfl, rfl, rfl, by simp [initUpload, hd]⟩
  · intro hd
    refine ⟨by simp [initUpload, hd],
      ⟨toString u ++ "_" ++ toString req.md5Hash ++ "_" ++ toString now,
        Int.tdiv (req.fileSize + req.chunkSize - 1) req.chunkSize, req.chunkSize,
        none, false⟩,
      ⟨toString u ++ "_" ++ toString req.md5Hash ++ "_" ++ toString now,
        req.fileName, req.fileSize, req.md5Hash, req.chunkSize,
        Int.tdiv (req.fileSize + req.chunkSize - 1) req.chunkSize, [],
        u, req.folderID, req.workflowID, req.taskID, req.description, req.isPrivate,
        cfg.tempPath ++ "/" ++
          (toString u ++ "_" ++ toString req.md5Hash ++ "_" ++ toString now)⟩,
      by simp [initUpload, hd], rfl, rfl, ?_, rfl⟩
    simp only [initUpload, hd]
    exact mapGet_mapSet_self _ _ σ.sessions

/-- Witness for C7: user 8's init against the state holding user 7's upload takes
the dedup path: no session, no filesystem change, one new row pointing at
demoFileA's path. -/
theorem initUpload_dedup_witness :
    (initUpload demoCfg 300 demoReqB 8 upStDone).2.sessions = upStDone.sessions ∧
    (initUpload demoCfg 300 demoReqB 8 upStDone).2.fs = upStDone.fs ∧
    ∃ nf : FileRecord,
      (initUpload demoCfg 300 demoReqB 8 upStDone).1 =
        Except.ok ⟨"", 0, 0, some nf, true⟩ ∧
      nf.filePath = demoFileA.filePath ∧ nf.md5Hash = demoFileA.md5Hash ∧
      nf.fileSize = demoFileA.fileSize ∧ nf.ownerID = 8 ∧
      (initUpload demoCfg 300 demoReqB 8 upStDone).2.files = upStDone.files ++ [nf] :=
  (initUpload_dedup demoCfg 300 demoReqB 8 upStDone).1 demoFileA rfl

/-- C8: one execution of the background builder writes exactly the status sequence
[processing, completed] or [processing, failed] to its task; prefixed with the
`pending` status the task is created with (`CreateBatchDownloadTask` dispatches the
builder exactly once per task, at creation), the observed sequence is a chain of the
spec's allowed transitions, ending terminal. The only other mutator, the expiry
reaper, never alters a surviving task record, so completed and failed are never
left. -/
theorem archiveTask_status_transitions
    (up dp burl : String) (now : Int) (taskID : Nat) (σ : DownloadState) :
    ((processDownloadTask up dp burl now taskID σ).2 =
        [TaskStatus.processing, TaskStatus.completed] ∨
      (processDownloadTask up dp burl now taskID σ).2 =
        [TaskStatus.processing, TaskStatus.failed]) ∧
    List.Chain (fun a b => allowedTransition a b = true) TaskStatus.pending
      (processDownloadTask up dp burl now taskID σ).2 ∧
    (∀ (now2 : Int) (σ2 : DownloadState) (t : DownloadTask),
      t ∈ (cleanExpiredTasks now2 σ2).tasks → t ∈ σ2.tasks) := by
  have htr : (processDownloadTask up dp burl now taskID σ).2 =
        [TaskStatus.processing, TaskStatus.completed] ∨
      (processDownloadTask up dp burl now taskID σ).2 =
        [TaskStatus.processing, TaskStatus.failed] := by
    rcases hf : (updateStatus taskID TaskStatus.processing σ.tasks).find?
        (fun t => t.id = taskID) with _ | task
    · right
      simp [processDownloadTask, hf]
    · rcases haz : addFilesToZip σ.srcFs up
          (σ.dbFiles.filter fun f => task.fileIDs.contains f.id) [] with ⟨entries, ofail⟩
      rcases ofail with _ | msg
      · left
        simp only [processDownloadTask, hf]
        rw [haz]
      · right
        simp only [processDownloadTask, hf]
        rw [haz]
  refine ⟨htr, ?_, ?_⟩
  · rcases htr with h | h <;> rw [h]
    · exact List.Chain.cons rfl (List.Chain.cons rfl List.Chain.nil)
    · exact List.Chain.cons rfl (List.Chain.cons rfl List.Chain.nil)
  · intro now2 σ2 t ht
    exact List.mem_of_mem_filter ht

/-- Witness for C8: the reaper-frame conjunct applied to the concrete sweep at time
1000: the surviving fresh completed task is one of the original records. -/
theorem archiveTask_status_transitions_witness :
    reapTaskFresh ∈ reapSt0.tasks :=
  (archiveTask_status_transitions "/up" "/dl" "http://h" 500 1 dlSt0).2.2 1000 reapSt0
    reapTaskFresh (by decide)

/-- C9 counterexample: building task 1 fails on the missing source file "u/f11";
the task is marked failed with the error detail stored — but "the partially written
container is removed" is refuted: the partial container at "/dl/t_7_500.zip", with
the one entry streamed before the failure, remains on disk. -/
theorem zip_failure_partial_container_remains_cx :
    (processDownloadTask "/up" "/dl" "http://h" 500 1 dlSt0).2 =
      [TaskStatus.processing, TaskStatus.failed] ∧
    dlSt1.tasks = [dlTask1Failed] ∧
    mapGet "/dl/t_7_500.zip" dlSt1.dlFs = some [("f10.txt", [1, 2, 3])] :=
  ⟨rfl, rfl, rfl⟩

/-- C9 (amended): when the zip-building loop fails, the builder writes exactly
[processing, failed]; every task row with the target id is marked failed with the
error message stored (its container path, download URL and expiry fields are
whatever they were — empty for a freshly created task — so no completed container or
download reference is produced), every other row is untouched, and the failure is
terminal for this execution; however the partially written container (the entries
streamed before the failure) is left at the container path, not removed, and every
other path in the download directory is untouched. -/
theorem processDownloadTask_failure_frame
    (up dp burl : String) (now : Int) (taskID : Nat) (σ : DownloadState)
    (t : DownloadTask) (entries : List (String × List Nat)) (msg : String)
    (hfind : σ.tasks.find? (fun u => u.id = taskID) = some t)
    (haz : addFilesToZip σ.srcFs up
      (σ.dbFiles.filter fun f => t.fileIDs.contains f.id) [] = (entries, some msg)) :
    (processDownloadTask up dp burl now taskID σ).2 =
      [TaskStatus.processing, TaskStatus.failed] ∧
    (∀ u ∈ σ.tasks, u.id = taskID →
      { u with status := TaskStatus.failed, errorMsg := msg } ∈
        (processDownloadTask up dp burl now taskID σ).1.tasks) ∧
    (∀ u ∈ σ.tasks, u.id ≠ taskID →
      u ∈ (processDownloadTask up dp burl now taskID σ).1.tasks) ∧
    mapGet (zipPathOf dp t now) (processDownloadTask up dp burl now taskID σ).1.dlFs =
      some entries ∧
    (∀ p : String, p ≠ zipPathOf dp t now →
      mapGet p (processDownloadTask up dp burl now taskID σ).1.dlFs = mapGet p σ.dlFs) := by
  have hf2 : (updateStatus taskID TaskStatus.processing σ.tasks).find?
      (fun u => u.id = taskID) = some { t with status := TaskStatus.processing } := by
    rw [find?_updateStatus, hfind]
    rfl
  have hred : processDownloadTask up dp burl now taskID σ =
      ({ σ with
           tasks := updateTaskError taskID msg σ.tasks
           dlFs := mapSet (zipPathOf dp t now) entries σ.dlFs },
       [TaskStatus.processing, TaskStatus.failed]) := by
    simp only [processDownloadTask, hf2]
    rw [show (σ.dbFiles.filter
        fun f => ({ t with status := TaskStatus.processing } : DownloadTask).fileIDs.contains f.id) =
      (σ.dbFiles.filter fun f => t.fileIDs.contains f.id) from rfl]
    rw [haz]
    dsimp only
    rw [updateTaskError_updateStatus]
    rfl
  refine ⟨?_, ?_, ?_, ?_, ?_⟩
  · rw [hred]
  · intro u hu hid
    rw [hred]
    exact mem_updateTaskError_of_eq taskID msg σ.tasks u hu hid
  · intro u hu hid
    rw [hred]
    exact mem_updateTaskError_of_ne taskID msg σ.tasks u hu hid
  · rw [hred]
    exact mapGet_mapSet_self _ _ σ.dlFs
  · intro p hp
    rw [hred]
    exact mapGet_mapSet_of_ne hp entries σ.dlFs

/-- Witness for C9: the concrete failing build of task 1: trace [processing,
failed] and the partial container still present with its single entry. -/
theorem processDownloadTask_failure_frame_witness :
    (processDownloadTask "/up" "/dl" "http://h" 500 1 dlSt0).2 =
      [TaskStatus.processing, TaskStatus.failed] ∧
    mapGet (zipPathOf "/dl" dlTask1 500)
      (processDownloadTask "/up" "/dl" "http://h" 500 1 dlSt0).1.dlFs =
      some [("f10.txt", [1, 2, 3])] :=
  ⟨(processDownloadTask_failure_frame "/up" "/dl" "http://h" 500 1 dlSt0 dlTask1
      [("f10.txt", [1, 2, 3])] "添加文件到ZIP失败: u/f11" rfl rfl).1,
   (processDownloadTask_failure_frame "/up" "/dl" "http://h" 500 1 dlSt0 dlTask1
      [("f10.txt", [1, 2, 3])] "添加文件到ZIP失败: u/f11" rfl rfl).2.2.2.1⟩

/-- C10: the expiry sweep deletes exactly the task records that are completed with
an expiry strictly in the past (a task with no expiry stamped never qualifies);
every other record — pending, processing, failed, or completed but not yet expired —
survives completely unchanged, and every container file whose path is not the
recorded container path of some expired completed task is untouched, so failed
tasks, their records, and files they left behind are never reclaimed. -/
theorem cleanExpiredTasks_frame (now : Int) (σ : DownloadState) :
    (∀ t : DownloadTask, t ∈ (cleanExpiredTasks now σ).tasks ↔
      t ∈ σ.tasks ∧ isExpiredCompleted now t = false) ∧
    (∀ t : DownloadTask, isExpiredCompleted now t = true ↔
      (t.status = TaskStatus.completed ∧ ∃ e, t.expiresAt = some e ∧ e < now)) ∧
    (∀ p : String,
      (∀ t ∈ σ.tasks, isExpiredCompleted now t = true → t.zipFilePath ≠ p) →
      mapGet p (cleanExpiredTasks now σ).dlFs = mapGet p σ.dlFs) := by
  refine ⟨?_, ?_, ?_⟩
  · intro t
    simp [cleanExpiredTasks, List.mem_filter]
  · intro t
    unfold isExpiredCompleted
    cases hexp : t.expiresAt with
    | none => simp [hexp]
    | some e => simp [hexp, and_comm]
  · intro p hp
    exact mapGet_reapFold_of_ne p _ σ.dlFs
      (fun t ht => hp t (List.mem_of_mem_filter ht) (List.mem_filter.mp ht).2)

/-- Witness for C10: sweeping at time 1000 leaves the stray partial container of
the failed task exactly in place. -/
theorem cleanExpiredTasks_frame_witness :
    mapGet "/dl/t_7_500.zip" (cleanExpiredTasks 1000 reapSt0).dlFs =
      mapGet "/dl/t_7_500.zip" reapSt0.dlFs :=
  (cleanExpiredTasks_frame 1000 reapSt0).2.2 "/dl/t_7_500.zip" (by decide)

end MCS
